import Mathlib

/-!
Verification of the wave-mc-jars-api aggregation engine.

This file shallowly embeds the Go source of the repository
`ServerwaveHost/wave-mc-jars-api`: the normalized data model
(`internal/models/models.go`), the Paper/Fill provider
(`internal/providers/paper.go`), the Purpur provider
(`internal/providers/purpur.go`), the BungeeCord provider
(`internal/providers/bungeecord.go`), the Java requirement resolver
(`internal/java/java.go`) and the aggregation service search
(`internal/service/service.go`).

Modelling conventions:
- Go machine integers are modelled as unbounded `Int`; none of the verified
  properties involve overflow (version components, build numbers and Java
  major versions are tiny).
- `time.Time` values are modelled as `Option Int` (milliseconds); `none`
  stands for the zero time (`IsZero`).  External standard-library routines
  (`time.Parse`, `time.Time.Year`) are passed in as explicit function
  parameters where a provider uses them.
- Network fetches are modelled by passing the decoded upstream response
  (or the fetch outcome, `Except String _`) as an explicit argument to the
  pure core of each provider method.
- Go's `sort.Slice` with a `less` closure is determinized as Mathlib's
  `List.insertionSort` over the same relation.
- Go iteration over a `map[string]T` built by repeated assignment is
  determinized by `mapEntries`, which keeps, for each key, the last
  binding (Go map semantics) — one entry per distinct key.
-/

namespace WaveMC

/-! ## Data model (internal/models/models.go) -/

/-- `models.Category`. -/
inductive Category where
  | vanilla | paper | spigot | purpur | folia | velocity | bungeecord
deriving DecidableEq, Repr

/-- `models.VersionType`. -/
inductive VersionType where
  | release | snapshot | beta | alpha
deriving DecidableEq, Repr

/-- `models.Version`.  `releaseTime = none` models the zero `time.Time`.
`supported` exists in the current generation of the model (set by the Fill
provider). -/
structure Version where
  id : String
  type : VersionType
  releaseTime : Option Int
  stable : Bool
  supported : Bool
  java : Int
deriving DecidableEq, Repr

/-- `models.Download`.  The `UpstreamURL` field carries the Go struct tag
`json:"-"` (hidden from JSON, internal use only). -/
structure Download where
  name : String
  sha256 : String
  sha1 : String
  size : Int
  upstreamURL : String
deriving DecidableEq, Repr

/-- `models.Change`. -/
structure Change where
  commit : String
  summary : String
  author : String
deriving DecidableEq, Repr

/-- `models.Build`. -/
structure Build where
  number : Int
  version : String
  channel : String
  stable : Bool
  createdAt : Option Int
  downloads : List Download
  changes : List Change
  java : Int
deriving DecidableEq, Repr

/-- `models.SearchResult`. -/
structure SearchResult where
  category : Category
  version : String
  java : Int
deriving DecidableEq, Repr

/-- `models.BuildsResponse`. -/
structure BuildsResponse where
  category : Category
  version : String
  builds : List Build
  latestStable : Option Build
deriving DecidableEq, Repr

/-! ## Go string helpers

Character-level implementations of the `strings` / `strconv` functions the
source uses, over `List Char` so everything reduces structurally.  Go's
`strings.ToLower`/`ToUpper` are Unicode-aware; the embedded versions use the
ASCII case mapping, which coincides on every input the code compares
against. -/

/-- `c >= '0' && c <= '9'` as written in the Go source. -/
def isDigitChar (c : Char) : Bool := '0' ≤ c && c ≤ '9'

/-- ASCII lowercase letter test (the regex class `[a-z]`). -/
def isLowerAlpha (c : Char) : Bool := 'a' ≤ c && c ≤ 'z'

/-- `strings.ToLower` (ASCII fragment). -/
def toLowerStr (s : String) : String := String.mk (s.toList.map Char.toLower)

/-- `strings.ToUpper` (ASCII fragment). -/
def toUpperStr (s : String) : String := String.mk (s.toList.map Char.toUpper)

/-- `strings.HasPrefix` on character lists: does `hay` start with `pat`? -/
def listStartsWith : List Char → List Char → Bool
  | _, [] => true
  | [], _ :: _ => false
  | a :: as, b :: bs => a == b && listStartsWith as bs

/-- `strings.Contains` on character lists: does `pat` occur in `hay`? -/
def listContains (hay pat : List Char) : Bool :=
  match hay with
  | [] => pat.isEmpty
  | _ :: rest => listStartsWith hay pat || listContains rest pat

/-- `strings.Contains(s, sub)`. -/
def goContains (s sub : String) : Bool := listContains s.toList sub.toList

/-- `strings.HasPrefix(s, p)`. -/
def goHasP (s p : String) : Bool := listStartsWith s.toList p.toList

/-- `strings.Split(v, sep)` for a one-character separator: splits at every
occurrence; `Split("", sep) = [""]`. -/
def splitChar (sep : Char) : List Char → List (List Char)
  | [] => [[]]
  | c :: rest =>
    if c = sep then [] :: splitChar sep rest
    else
      match splitChar sep rest with
      | [] => [[c]]
      | h :: t => (c :: h) :: t

/-- `strings.SplitN(v, sep, 2)` for a one-character separator: splits at the
first occurrence only. -/
def splitN2 (sep : Char) : List Char → List (List Char)
  | [] => [[]]
  | c :: rest =>
    if c = sep then [[], rest]
    else
      match splitN2 sep rest with
      | [] => [[c]]
      | h :: t => (c :: h) :: t

/-- Accumulating decimal digit parser; fails on the first non-digit. -/
def digitsToNatAux : List Char → Nat → Option Nat
  | [], acc => some acc
  | c :: rest, acc =>
    if isDigitChar c then digitsToNatAux rest (acc * 10 + (c.toNat - 48))
    else none

/-- `strconv.Atoi`: optional sign followed by one or more decimal digits;
`none` models the error case.  (Go's 64-bit overflow error cannot occur on
the version components this code parses.) -/
def goAtoiL : List Char → Option Int
  | [] => none
  | c :: rest =>
    if c = '+' then
      if rest.isEmpty then none else (digitsToNatAux rest 0).map Int.ofNat
    else if c = '-' then
      if rest.isEmpty then none
      else (digitsToNatAux rest 0).map (fun n => -(Int.ofNat n))
    else (digitsToNatAux (c :: rest) 0).map Int.ofNat

/-- `strconv.Atoi` on a string. -/
def goAtoi (s : String) : Option Int := goAtoiL s.toList

/-- `n, _ := strconv.Atoi(s)` with the error ignored: Go's `Atoi` returns the
value 0 together with a syntax error, so the assigned value is 0. -/
def goAtoiZ (s : String) : Int := (goAtoi s).getD 0

instance {ε α : Type} [DecidableEq ε] [DecidableEq α] :
    DecidableEq (Except ε α) := fun a b =>
  match a, b with
  | .error e1, .error e2 =>
    if h : e1 = e2 then isTrue (by rw [h])
    else isFalse (by intro hh; cases hh; exact h rfl)
  | .ok x, .ok y =>
    if h : x = y then isTrue (by rw [h])
    else isFalse (by intro hh; cases hh; exact h rfl)
  | .error _, .ok _ => isFalse (by intro hh; cases hh)
  | .ok _, .error _ => isFalse (by intro hh; cases hh)

/-! ## JSON serialization (encoding/json applied to the model structs)

The externally observable representation of each record is its
`encoding/json` output, determined by the struct tags in
`internal/models/models.go`.  `Json` is a syntax tree of that output; each
`marshal…` function emits the fields in struct order, honouring `omitempty`
(Go omits empty strings, zero numbers and empty slices, but not zero
`time.Time` struct values) and the `json:"-"` tag on `Download.UpstreamURL`,
which excludes the field unconditionally. -/

inductive Json where
  | str : String → Json
  | num : Int → Json
  | bool : Bool → Json
  | arr : List Json → Json
  | obj : List (String × Json) → Json

/-- The key list of a serialized object. -/
def objKeys : Json → List String
  | .obj l => l.map (fun kv => kv.1)
  | _ => []

/-- `encoding/json` on `models.Download`: tags `name`, `sha256,omitempty`,
`sha1,omitempty`, `size,omitempty`, and `-` for `UpstreamURL`. -/
def marshalDownload (d : Download) : Json :=
  .obj ([("name", .str d.name)]
    ++ (if d.sha256 = "" then [] else [("sha256", .str d.sha256)])
    ++ (if d.sha1 = "" then [] else [("sha1", .str d.sha1)])
    ++ (if d.size = 0 then [] else [("size", .num d.size)]))

/-- `encoding/json` on `models.Change`: all three fields `omitempty`. -/
def marshalChange (c : Change) : Json :=
  .obj ((if c.commit = "" then [] else [("commit", .str c.commit)])
    ++ (if c.summary = "" then [] else [("summary", .str c.summary)])
    ++ (if c.author = "" then [] else [("author", .str c.author)]))

/-- `encoding/json` on `models.Build`.  `fmtTime` stands for the RFC3339
rendering of `time.Time`; `created_at,omitempty` is still always emitted
because `omitempty` never considers a struct value empty. -/
def marshalBuild (fmtTime : Option Int → String) (b : Build) : Json :=
  .obj ([("number", .num b.number), ("version", .str b.version)]
    ++ (if b.channel = "" then [] else [("channel", .str b.channel)])
    ++ [("stable", .bool b.stable), ("created_at", .str (fmtTime b.createdAt))]
    ++ (if b.downloads.isEmpty then []
        else [("downloads", .arr (b.downloads.map marshalDownload))])
    ++ (if b.changes.isEmpty then []
        else [("changes", .arr (b.changes.map marshalChange))])
    ++ (if b.java = 0 then [] else [("java", .num b.java)]))

/-- The JSON name of a `models.Category` value. -/
def categoryName : Category → String
  | .vanilla => "vanilla"
  | .paper => "paper"
  | .spigot => "spigot"
  | .purpur => "purpur"
  | .folia => "folia"
  | .velocity => "velocity"
  | .bungeecord => "bungeecord"

/-- `encoding/json` on `models.BuildsResponse` (tags `category`, `version`,
`builds`, `latest_stable,omitempty` — a nil pointer is omitted). -/
def marshalBuildsResponse (fmtTime : Option Int → String)
    (r : BuildsResponse) : Json :=
  .obj ([("category", .str (categoryName r.category)),
         ("version", .str r.version),
         ("builds", .arr (r.builds.map (marshalBuild fmtTime)))]
    ++ (match r.latestStable with
        | none => []
        | some b => [("latest_stable", marshalBuild fmtTime b)]))

/-! ## Paper/Fill provider (internal/providers/paper.go, current generation) -/

namespace Paper

/-- `isStableChannel`: a channel is stable when its upper-casing is
`"STABLE"` or `"RECOMMENDED"`. -/
def isStableChannel (channel : String) : Bool :=
  let ch := toUpperStr channel
  ch == "STABLE" || ch == "RECOMMENDED"

/-- `isSnapshotVersion` (paper.go): upper-cases and looks for the dev/
pre-release markers. -/
def isSnapshotVersion (version : String) : Bool :=
  let v := toUpperStr version
  goContains v "SNAPSHOT" || goContains v "-DEV" || goContains v "-BETA" ||
  goContains v "-ALPHA" || goContains v "-RC" || goContains v "-PRE"

/-- `getVersionType` (paper.go). -/
def getVersionType (version : String) : VersionType :=
  let v := toUpperStr version
  if goContains v "SNAPSHOT" || goContains v "-DEV" || goContains v "-PRE" ||
      goContains v "-RC" then VersionType.snapshot
  else if goContains v "-BETA" then VersionType.beta
  else if goContains v "-ALPHA" then VersionType.alpha
  else VersionType.release

/-- The quintuple returned by `parseSemanticVersion`. -/
structure ParsedVersion where
  major : Int
  minor : Int
  patch : Int
  preRelease : String
  preReleaseNum : Int
deriving DecidableEq, Repr

/-- The `for i, c := range prePart` scan in `parseSemanticVersion`: find the
first decimal digit, returning the characters before it and the suffix from
it on; `none` when no digit occurs. -/
def scanPre : List Char → Option (List Char × List Char)
  | [] => none
  | c :: rest =>
    if isDigitChar c then some ([], c :: rest)
    else
      match scanPre rest with
      | some (pre, suf) => some (c :: pre, suf)
      | none => none

/-- The pre-release branch of `parseSemanticVersion`: produces
`(preRelease, preReleaseNum)` from the part after the first `-`.  When the
first digit is at index 0 the Go code leaves `preRelease` empty and the
final `if preRelease == ""` resets it to the whole `prePart` (the parsed
number survives). -/
def parsePreRelease (prePart : List Char) : String × Int :=
  match scanPre prePart with
  | some (pre, suf) =>
    let preStr := String.mk pre
    let num := goAtoiZ (String.mk suf)
    if preStr = "" then (String.mk prePart, num) else (preStr, num)
  | none => (String.mk prePart, 0)

/-- `parseSemanticVersion` (paper.go): lower-case, split once at `-`,
parse the dotted main segment with errors ignored (`x, _ := Atoi` leaves 0),
and parse the pre-release tag. -/
def parseSemanticVersion (version : String) : ParsedVersion :=
  let v := (toLowerStr version).toList
  let parts := splitN2 '-' v
  let mainPart := parts.headD []
  let pr :=
    match parts with
    | _ :: prePart :: _ => parsePreRelease prePart
    | _ => ("", 0)
  let versionParts := splitChar '.' mainPart
  { major :=
      match versionParts with
      | p :: _ => goAtoiZ (String.mk p)
      | [] => 0
    minor :=
      match versionParts with
      | _ :: p :: _ => goAtoiZ (String.mk p)
      | _ => 0
    patch :=
      match versionParts with
      | _ :: _ :: p :: _ => goAtoiZ (String.mk p)
      | _ => 0
    preRelease := pr.1
    preReleaseNum := pr.2 }

/-- The `preOrder` map of `compareVersions`; a missing key yields Go's map
zero value 0. -/
def preOrder (pre : String) : Int :=
  if pre = "snapshot" then 1
  else if pre = "alpha" then 2
  else if pre = "beta" then 3
  else if pre = "pre" then 4
  else if pre = "rc" then 5
  else 0

/-- The comparison chain of `compareVersions` on two parsed versions,
mirroring the branch structure of the Go function. -/
def cmpParsed (p1 p2 : ParsedVersion) : Int :=
  if p1.major ≠ p2.major then (if p1.major > p2.major then 1 else -1)
  else if p1.minor ≠ p2.minor then (if p1.minor > p2.minor then 1 else -1)
  else if p1.patch ≠ p2.patch then (if p1.patch > p2.patch then 1 else -1)
  else if p1.preRelease = "" ∧ p2.preRelease ≠ "" then 1
  else if p1.preRelease ≠ "" ∧ p2.preRelease = "" then -1
  else if preOrder p1.preRelease ≠ preOrder p2.preRelease then
    (if preOrder p1.preRelease > preOrder p2.preRelease then 1 else -1)
  else if p1.preReleaseNum ≠ p2.preReleaseNum then
    (if p1.preReleaseNum > p2.preReleaseNum then 1 else -1)
  else 0

/-- `compareVersions` (paper.go): parse both then compare. -/
def compareVersions (v1 v2 : String) : Int :=
  cmpParsed (parseSemanticVersion v1) (parseSemanticVersion v2)

/-- Lexicographic three-way comparison of integer lists. -/
def lexCmpList : List Int → List Int → Int
  | [], [] => 0
  | [], _ :: _ => -1
  | _ :: _, [] => 1
  | a :: as, b :: bs =>
    if a > b then 1 else if b > a then -1 else lexCmpList as bs

/-- The comparison key underlying `cmpParsed`: main components, a flag
ranking a missing pre-release tag above a present one, the pre-release kind
order and the numeric suffix. -/
def versionKey (p : ParsedVersion) : List Int :=
  [p.major, p.minor, p.patch, (if p.preRelease = "" then 1 else 0),
   preOrder p.preRelease, p.preReleaseNum]

theorem chain_eq (a b r s : Int) (h : r = s) :
    (if a ≠ b then (if a > b then (1 : Int) else -1) else r) =
      (if a > b then 1 else if b > a then -1 else s) := by
  split_ifs <;> omega

theorem flag_eq (pre1 pre2 : String) (r s : Int) (h : r = s) :
    (if pre1 = "" ∧ pre2 ≠ "" then (1 : Int)
     else if pre1 ≠ "" ∧ pre2 = "" then -1 else r) =
      (if (if pre1 = "" then (1 : Int) else 0) > (if pre2 = "" then 1 else 0)
       then 1
       else if (if pre2 = "" then (1 : Int) else 0) >
           (if pre1 = "" then 1 else 0) then -1
       else s) := by
  by_cases h1 : pre1 = "" <;> by_cases h2 : pre2 = "" <;> simp [h1, h2, h]

theorem cmpParsed_eq_lex (p1 p2 : ParsedVersion) :
    cmpParsed p1 p2 = lexCmpList (versionKey p1) (versionKey p2) := by
  unfold cmpParsed versionKey
  simp only [lexCmpList]
  exact chain_eq _ _ _ _ (chain_eq _ _ _ _ (chain_eq _ _ _ _
    (flag_eq _ _ _ _ (chain_eq _ _ _ _ (chain_eq _ _ _ _ rfl)))))

theorem lexCmpList_antisymm (a b : List Int) :
    lexCmpList a b = - lexCmpList b a := by
  induction a generalizing b with
  | nil => cases b <;> simp [lexCmpList]
  | cons x xs ih =>
    cases b with
    | nil => simp [lexCmpList]
    | cons y ys =>
      simp only [lexCmpList]
      split_ifs <;> first | omega | exact ih ys

theorem lexCmpList_trans (a b c : List Int)
    (hab : lexCmpList a b = 1) (hbc : lexCmpList b c = 1) :
    lexCmpList a c = 1 := by
  induction a generalizing b c with
  | nil =>
    cases b <;> simp_all [lexCmpList]
  | cons x xs ih =>
    cases b with
    | nil =>
      cases c with
      | nil => simp_all [lexCmpList]
      | cons z zs => simp_all [lexCmpList]
    | cons y ys =>
      cases c with
      | nil => simp [lexCmpList]
      | cons z zs =>
        simp only [lexCmpList] at hab hbc ⊢
        split_ifs at hab hbc ⊢ <;>
          first | rfl | omega | exact ih ys zs hab hbc

theorem compareVersions_antisymm (a b : String) :
    compareVersions a b = - compareVersions b a := by
  unfold compareVersions
  rw [cmpParsed_eq_lex, cmpParsed_eq_lex]
  exact lexCmpList_antisymm _ _

theorem compareVersions_trans (a b c : String)
    (hab : compareVersions a b = 1) (hbc : compareVersions b c = 1) :
    compareVersions a c = 1 := by
  unfold compareVersions at *
  rw [cmpParsed_eq_lex] at hab hbc ⊢
  exact lexCmpList_trans _ _ _ hab hbc

/-! ### Fill API payloads and the build pipeline -/

/-- `FillChange`. -/
structure FillChange where
  commit : String
  summary : String
  message : String
deriving DecidableEq, Repr

/-- `FillDownloadEntry`. -/
structure FillDownloadEntry where
  url : String
  sha256 : String
deriving DecidableEq, Repr

/-- `FillBuild`.  The Go `Downloads map[string]FillDownloadEntry` is modelled
as an association list looked up by key. -/
structure FillBuild where
  id : Int
  channel : String
  time : String
  downloads : List (String × FillDownloadEntry)
  changes : List FillChange
deriving DecidableEq, Repr

/-- Go map lookup `m[k]` returning `ok`: first binding for the key. -/
def mapLookup (m : List (String × FillDownloadEntry)) (k : String) :
    Option FillDownloadEntry :=
  (m.find? (fun kv => kv.1 == k)).map (fun kv => kv.2)

/-- The body of the `for _, b := range fillBuilds` loop in `GetBuilds`:
convert one `FillBuild` into a `models.Build`.  `parseTime` stands for
`time.Parse(time.RFC3339, ·)` with `none` for a parse error (the error is
discarded, leaving the zero time). -/
def buildOfFill (parseTime : String → Option Int) (projectID version : String)
    (b : FillBuild) : Build :=
  let changes := b.changes.map (fun c => { commit := c.commit, summary := c.summary, author := "" })
  let dl :=
    match mapLookup b.downloads "server:default" with
    | some dl => some dl
    | none => mapLookup b.downloads "proxy:default"
  let downloads :=
    match dl with
    | some dl =>
      [{ name := projectID ++ "-" ++ version ++ "-" ++ toString b.id ++ ".jar",
         sha256 := dl.sha256, sha1 := "", size := 0, upstreamURL := dl.url }]
    | none => ([] : List Download)
  { number := b.id, version := version, channel := b.channel,
    stable := isStableChannel b.channel, createdAt := parseTime b.time,
    downloads := downloads, changes := changes, java := 0 }

/-- The pure core of `GetBuilds` once the Fill response is decoded: convert
every build and sort by number descending (`sort.Slice` with
`builds[i].Number > builds[j].Number`). -/
def buildsOf (parseTime : String → Option Int) (projectID version : String)
    (fillBuilds : List FillBuild) : List Build :=
  (fillBuilds.map (buildOfFill parseTime projectID version)).insertionSort
    (fun a b => a.number > b.number)

/-- `GetBuilds`, with the network fetch outcome passed in. -/
def GetBuilds (parseTime : String → Option Int) (projectID version : String)
    (fetch : Except String (List FillBuild)) : Except String (List Build) :=
  match fetch with
  | .error e => .error e
  | .ok fillBuilds => .ok (buildsOf parseTime projectID version fillBuilds)

/-- `GetBuild`: linear scan of `GetBuilds` output for the requested number,
`not found` otherwise. -/
def GetBuild (parseTime : String → Option Int) (projectID version : String)
    (fetch : Except String (List FillBuild)) (build : Int) :
    Except String Build :=
  match GetBuilds parseTime projectID version fetch with
  | .error e => .error e
  | .ok builds =>
    match builds.find? (fun b => b.number == build) with
    | some b => .ok b
    | none => .error ("build not found for version " ++ version)

/-- The selection logic of `GetLatestBuild` after `GetBuilds` succeeded:
error when empty, else the first build whose `Stable` flag is set, else the
first build overall. -/
def latestFromBuilds : List Build → Except String Build
  | [] => .error "no builds found"
  | b :: rest =>
    match (b :: rest).find? (fun x => x.stable) with
    | some s => .ok s
    | none => .ok b

/-- `GetLatestBuild` (paper.go, current generation). -/
def GetLatestBuild (parseTime : String → Option Int) (projectID version : String)
    (fetch : Except String (List FillBuild)) : Except String Build :=
  match GetBuilds parseTime projectID version fetch with
  | .error e => .error e
  | .ok builds => latestFromBuilds builds

/-- `GetDownloadURL` (paper.go): delegate to `GetBuild` and fail with
`no download available` when the build carries no `Download` entries. -/
def GetDownloadURL (parseTime : String → Option Int) (projectID version : String)
    (fetch : Except String (List FillBuild)) (build : Int) :
    Except String String :=
  match GetBuild parseTime projectID version fetch build with
  | .error e => .error e
  | .ok b =>
    match b.downloads with
    | [] => .error "no download available"
    | d :: _ => .ok d.upstreamURL

/-! ### Fill API versions and `GetVersions` -/

/-- One entry of the Fill `/versions` response, already reduced to the data
`fetchAllVersionInfo` extracts: the version id, the `SUPPORTED` status check
and the minimum Java version (map zero values when absent). -/
structure FillVersionEntry where
  id : String
  supported : Bool
  java : Int
deriving DecidableEq, Repr

/-- Determinization of the Go map built by `fetchAllVersionInfo`
(`results[v.Version.ID] = info`, last write wins) and of its iteration: one
entry per distinct id, carrying the last binding. -/
def mapEntries : List FillVersionEntry → List FillVersionEntry
  | [] => []
  | e :: rest =>
    if rest.any (fun x => x.id == e.id) then mapEntries rest
    else e :: mapEntries rest

/-- The enrichment result one goroutine of `GetVersions` writes to the
results channel: the parsed time of `builds[0]` (if any) and whether any
build sits on a stable channel.  `none` models both a failed builds fetch
and an empty builds list — in either case the Go code keeps the initial
`versionBuildInfo{index: idx, hasStable: false}`. -/
structure EnrichResult where
  releaseTime : Option Int
  hasStable : Bool
deriving DecidableEq, Repr

/-- The pure core of `GetVersions` (paper.go, current generation): build the
base records from the version-info map, merge each goroutine's enrichment
result (failure leaves the zero time and sets `Stable := info.hasStable`,
i.e. `false`), then sort by `compareVersions` descending. -/
def GetVersions (enrich : String → Option EnrichResult)
    (upstream : List FillVersionEntry) : List Version :=
  let versions := (mapEntries upstream).map (fun e =>
    { id := e.id, type := getVersionType e.id, releaseTime := none,
      stable := !isSnapshotVersion e.id, supported := e.supported,
      java := e.java : Version })
  let merged := versions.map (fun v =>
    let info := (enrich v.id).getD { releaseTime := none, hasStable := false }
    { v with
      releaseTime :=
        match info.releaseTime with
        | some t => some t
        | none => v.releaseTime
      stable := info.hasStable })
  merged.insertionSort (fun a b => compareVersions a.id b.id > 0)

end Paper

/-! ## Java requirement resolver (internal/java/java.go, current generation) -/

namespace Java

/-- `java.VersionRequirement`. -/
structure VersionRequirement where
  minVersion : String
  java : Int
deriving DecidableEq, Repr

/-- `java.JavaConfig` (the `default` field is spelled `defaultJava`). -/
structure JavaConfig where
  servers : List VersionRequirement
  proxies : List VersionRequirement
  defaultJava : Int
deriving DecidableEq, Repr

/-- `isProxy`. -/
def isProxy (category : Category) : Bool :=
  category == Category.velocity || category == Category.bungeecord

/-- `parseVersionParts` (current generation): strip a leading `v`, reject
strings not starting with a digit, split on dots and keep the parts whose
text before any `-` parses as an integer. -/
def parseVersionParts (version : String) : List Int :=
  let v := if goHasP version "v" then String.mk (version.toList.drop 1) else version
  match v.toList with
  | [] => []
  | c :: _ =>
    if c < '0' ∨ c > '9' then []
    else
      (splitChar '.' v.toList).filterMap (fun part =>
        goAtoi (String.mk ((splitN2 '-' part).headD [])))

/-- The `for i := 0; i < maxLen; i++` body of `compareVersions` (java.go):
`n` counts the remaining iterations, the heads are the current components
(0 when a list has run out), and the loop advances on a tie. -/
def cmpLoop : Nat → List Int → List Int → Int
  | 0, _, _ => 0
  | n + 1, a, b =>
    let p1 := a.headD 0
    let p2 := b.headD 0
    if p1 > p2 then 1 else if p1 < p2 then -1 else cmpLoop n a.tail b.tail

/-- The component loop of `compareVersions` (java.go): compare index-wise up
to the longer list, missing components read as 0. -/
def cmpPadded (a b : List Int) : Int := cmpLoop (max a.length b.length) a b

/-- `compareVersions` (java.go): the special cases for `latest` and `"0"`,
the unparseable-first-argument rule, then the padded component loop. -/
def compareVersions (v1 v2 : String) : Int :=
  if v1 = "latest" then 1
  else if v2 = "0" then 1
  else
    let parts1 := parseVersionParts v1
    let parts2 := parseVersionParts v2
    if parts1 = [] then -1
    else cmpPadded parts1 parts2

/-- The legacy-identifier test at the top of `GetRequirement`, on the
characters of the lower-cased version. -/
def isLegacyVersion (lower : List Char) : Bool :=
  listStartsWith lower ['a'] || listStartsWith lower ['b'] ||
  listStartsWith lower ['c'] || listStartsWith lower ['r', 'd', '-'] ||
  listStartsWith lower ['i', 'n', 'f', '-'] ||
  listContains lower ['i', 'n', 'd', 'e', 'v']

/-- The regex `^(\d{2})w(\d{2})[a-z]$` applied to the lower-cased version:
returns the two-digit year and week on a match. -/
def weeklySnapshotMatch (lower : List Char) : Option (Int × Int) :=
  match lower with
  | [y1, y2, wc, w1, w2, c] =>
    if isDigitChar y1 && isDigitChar y2 && wc == 'w' && isDigitChar w1 &&
        isDigitChar w2 && isLowerAlpha c then
      some ((Int.ofNat y1.toNat - 48) * 10 + (Int.ofNat y2.toNat - 48),
            (Int.ofNat w1.toNat - 48) * 10 + (Int.ofNat w2.toNat - 48))
    else none
  | _ => none

/-- The hardcoded year/week mapping for weekly snapshots. -/
def snapshotJava (year week : Int) : Int :=
  if year ≥ 24 then 21
  else if year = 23 ∧ week ≥ 40 then 21
  else if year ≥ 21 then 17
  else if year ≥ 17 then 8
  else 8

/-- The `for _, req := range requirements` scan of `GetRequirement`: the
first rule with `compareVersions(version, req.MinVersion) >= 0` wins. -/
def findRequirement (version : String) : List VersionRequirement → Option Int
  | [] => none
  | req :: rest =>
    if compareVersions version req.minVersion ≥ 0 then some req.java
    else findRequirement version rest

/-- `GetRequirement` with the configuration already loaded: legacy
identifiers map to 8, weekly snapshots through `snapshotJava`, otherwise the
role's rule table is scanned and the configured default closes the gap. -/
def getRequirementLoaded (cfg : JavaConfig) (version : String)
    (category : Category) : Int :=
  let lower := (toLowerStr version).toList
  if isLegacyVersion lower then 8
  else
    match weeklySnapshotMatch lower with
    | some (year, week) => snapshotJava year week
    | none =>
      match findRequirement version
          (if isProxy category then cfg.proxies else cfg.servers) with
      | some j => j
      | none => cfg.defaultJava

/-- `GetRequirement`: a configuration load error short-circuits to the safe
default 17. -/
def GetRequirement (cfg : Except String JavaConfig) (version : String)
    (category : Category) : Int :=
  match cfg with
  | .error _ => 17
  | .ok cfg => getRequirementLoaded cfg version category

end Java

/-! ## Purpur provider (internal/providers/purpur.go) -/

namespace Purpur

/-- The fields of `PurpurBuildResponse` the provider reads. -/
structure PurpurBuildResponse where
  build : String
  result : String
  timestamp : Int
  commits : List (String × String × String)
deriving DecidableEq, Repr

/-- The Purpur API base URL constant. -/
def purpurAPIBaseURL : String := "https://api.purpurmc.org/v2/purpur"

/-- The download URL `fmt.Sprintf("%s/%s/%d/download", ...)`. -/
def downloadURLFor (version : String) (build : Int) : String :=
  purpurAPIBaseURL ++ "/" ++ version ++ "/" ++ toString build ++ "/download"

/-- `GetBuild` (purpur.go), with the build fetch outcome passed in: builds a
`models.Build` whose stability is `Result == "SUCCESS"`, whose created time
is `UnixMilli(Timestamp)` when positive, and whose single download points at
the constructed Purpur download URL. -/
def GetBuild (fetch : Except String PurpurBuildResponse) (version : String)
    (build : Int) : Except String Build :=
  match fetch with
  | .error e => .error e
  | .ok r =>
    .ok { number := build, version := version, channel := "",
          stable := r.result == "SUCCESS",
          createdAt := if r.timestamp > 0 then some r.timestamp else none,
          downloads := [{ name := "purpur-" ++ version ++ "-" ++ toString build ++ ".jar",
                          sha256 := "", sha1 := "", size := 0,
                          upstreamURL := downloadURLFor version build }],
          changes := r.commits.map (fun c => { commit := c.1, summary := c.2.1, author := c.2.2 }),
          java := 0 }

/-- `GetDownloadURL` (purpur.go, lines 309-311): the URL is constructed
directly from the version and build number; the context is ignored, no
build is fetched, and the call never fails. -/
def GetDownloadURL (version : String) (build : Int) : Except String String :=
  .ok (downloadURLFor version build)

/-- The pure core of `GetVersions` (purpur.go): wrap every upstream version
id as a stable release, reverse to newest-first, merge the per-version
enrichment (which only recovers a release time; a failed fetch or a
non-positive timestamp leaves the zero time), then re-sort with
`sort.Slice` comparing times only when both are known. -/
def GetVersions (enrich : String → Option Int) (upstream : List String) :
    List Version :=
  let versions := upstream.map (fun v =>
    { id := v, type := VersionType.release, releaseTime := none,
      stable := true, supported := false, java := 0 : Version })
  let reversed := versions.reverse
  let merged := reversed.map (fun v =>
    match enrich v.id with
    | some t => { v with releaseTime := some t }
    | none => v)
  merged.insertionSort (fun a b =>
    (match a.releaseTime, b.releaseTime with
     | some ta, some tb => decide (ta > tb)
     | _, _ => false) = true)

end Purpur

/-! ## BungeeCord provider (internal/providers/bungeecord.go) -/

namespace Bungee

/-- `JenkinsBuildRef`. -/
structure JenkinsBuildRef where
  number : Int
  url : String
deriving DecidableEq, Repr

/-- `JenkinsArtifact`. -/
structure JenkinsArtifact where
  displayPath : String
  fileName : String
  relativePath : String
deriving DecidableEq, Repr

/-- `JenkinsBuildInfo`. -/
structure JenkinsBuildInfo where
  number : Int
  result : String
  timestamp : Int
  artifacts : List JenkinsArtifact
deriving DecidableEq, Repr

/-- The Jenkins job URL constant. -/
def bungeecordJenkinsURL : String := "https://ci.md-5.net/job/BungeeCord"

/-- The artifact scan: the first artifact named `BungeeCord.jar`. -/
def findJarArtifact (artifacts : List JenkinsArtifact) :
    Option JenkinsArtifact :=
  artifacts.find? (fun a => a.fileName == "BungeeCord.jar")

/-- The `models.Build` assembled for one Jenkins build. -/
def buildOfInfo (version : String) (number : Int) (info : JenkinsBuildInfo)
    (a : JenkinsArtifact) : Build :=
  { number := number, version := version, channel := "",
    stable := info.result == "SUCCESS", createdAt := some info.timestamp,
    downloads := [{ name := "BungeeCord-" ++ toString number ++ ".jar",
                    sha256 := "", sha1 := "", size := 0,
                    upstreamURL := bungeecordJenkinsURL ++ "/" ++ toString number
                      ++ "/artifact/" ++ a.relativePath }],
    changes := [], java := 0 }

/-- The pure core of `GetBuilds` (bungeecord.go) once the job listing is
decoded: consider only the first `min(50, len)` build references; for each,
a failed detail fetch (`fetchDetail` returns an error) or a missing
`BungeeCord.jar` artifact silently skips the build; finally sort by number
descending. -/
def GetBuilds (fetchDetail : Int → Except String JenkinsBuildInfo)
    (version : String) (refs : List JenkinsBuildRef) : List Build :=
  let maxBuilds := if refs.length < 50 then refs.length else 50
  let builds := (refs.take maxBuilds).filterMap (fun ref =>
    match fetchDetail ref.number with
    | .error _ => none
    | .ok info =>
      match findJarArtifact info.artifacts with
      | none => none
      | some a => some (buildOfInfo version ref.number info a))
  builds.insertionSort (fun a b => a.number > b.number)

end Bungee

/-! ## Aggregation service search (internal/service/service.go) -/

namespace Service

/-- `service.SearchOptions` (times as milliseconds, `none` = unset). -/
structure SearchOptions where
  query : String
  category : Option Category
  versionType : Option VersionType
  java : Option Int
  minYear : Option Int
  maxYear : Option Int
  stableOnly : Bool
  after : Option Int
  before : Option Int

/-- One registered provider as the `Search` loop observes it: its id, name
and category, and the outcome of `s.GetVersions` for it. -/
structure ProviderSim where
  id : String
  name : String
  category : Category
  versions : Except String (List Version)

/-- The per-version filter chain of `Search`, in source order.  `yearOf`
stands for `time.Time.Year` on the modelled millisecond timestamps. -/
def versionPasses (yearOf : Int → Int) (opts : SearchOptions)
    (name : String) (v : Version) : Bool :=
  if opts.versionType.isSome && opts.versionType ≠ some v.type then false
  else if opts.stableOnly && !v.stable then false
  else if opts.java.isSome && opts.java ≠ some v.java then false
  else if (match opts.minYear, v.releaseTime with
           | some y, some t => decide (yearOf t < y)
           | _, _ => false) then false
  else if (match opts.maxYear, v.releaseTime with
           | some y, some t => decide (yearOf t > y)
           | _, _ => false) then false
  else if (match opts.after, v.releaseTime with
           | some a, some t => decide (t < a)
           | _, _ => false) then false
  else if (match opts.before, v.releaseTime with
           | some b, some t => decide (t > b)
           | _, _ => false) then false
  else if opts.query ≠ "" &&
      !(goContains (toLowerStr v.id) (toLowerStr opts.query) ||
        goContains (toLowerStr name) (toLowerStr opts.query)) then false
  else true

/-- The contribution of one provider to `Search`: skipped entirely on a
category mismatch; a failed `GetVersions` is swallowed (`continue`), so the
provider contributes no results. -/
def searchOne (yearOf : Int → Int) (opts : SearchOptions) (p : ProviderSim) :
    List SearchResult :=
  if opts.category.isSome && opts.category ≠ some p.category then []
  else
    match p.versions with
    | .error _ => []
    | .ok versions =>
      versions.filterMap (fun v =>
        if versionPasses yearOf opts p.name v then
          some { category := p.category, version := v.id, java := v.java }
        else none)

/-- The concatenated results of `Search` over the registered providers. -/
def searchList (yearOf : Int → Int) (provs : List ProviderSim)
    (opts : SearchOptions) : List SearchResult :=
  provs.flatMap (searchOne yearOf opts)

/-- `Search` (service.go): the only return is `(results, nil)` — the
function itself never fails. -/
def Search (yearOf : Int → Int) (provs : List ProviderSim)
    (opts : SearchOptions) : Except String (List SearchResult) :=
  .ok (searchList yearOf provs opts)

end Service

/-! ## Claim C1: UpstreamURL never appears in JSON output -/

/-- Rewrite the `UpstreamURL` of every download of a build (an arbitrary
relabelling, to state that serialization is independent of the field). -/
def setUpstreams (f : Download → String) (b : Build) : Build :=
  { b with downloads := b.downloads.map (fun d => { d with upstreamURL := f d }) }

/-- Rewrite the `UpstreamURL`s everywhere in a `BuildsResponse`. -/
def setUpstreamsResponse (f : Download → String) (r : BuildsResponse) :
    BuildsResponse :=
  { r with builds := r.builds.map (setUpstreams f),
           latestStable := r.latestStable.map (setUpstreams f) }

theorem marshalDownload_setUpstream (d : Download) (u : String) :
    marshalDownload { d with upstreamURL := u } = marshalDownload d := rfl

theorem isEmpty_map {α β : Type} (f : α → β) (l : List α) :
    (l.map f).isEmpty = l.isEmpty := by cases l <;> rfl

theorem map_marshalDownload_set (f : Download → String) (l : List Download) :
    ((l.map (fun d => { d with upstreamURL := f d })).map marshalDownload) =
      l.map marshalDownload := by
  induction l with
  | nil => rfl
  | cons x xs ih =>
    rw [List.map_cons, List.map_cons, List.map_cons, ih,
      marshalDownload_setUpstream x (f x)]

theorem marshalBuild_setUpstreams (fmtTime : Option Int → String)
    (f : Download → String) (b : Build) :
    marshalBuild fmtTime (setUpstreams f b) = marshalBuild fmtTime b := by
  rcases b with ⟨num, ver, ch, st, ca, dls, chs, j⟩
  simp only [marshalBuild, setUpstreams]
  rw [isEmpty_map, map_marshalDownload_set]

theorem marshalBuildsResponse_setUpstreams (fmtTime : Option Int → String)
    (f : Download → String) (r : BuildsResponse) :
    marshalBuildsResponse fmtTime (setUpstreamsResponse f r) =
      marshalBuildsResponse fmtTime r := by
  rcases r with ⟨cat, ver, builds, latest⟩
  simp only [marshalBuildsResponse, setUpstreamsResponse, List.map_map]
  have hmap : builds.map (fun b => marshalBuild fmtTime (setUpstreams f b)) =
      builds.map (marshalBuild fmtTime) := by
    induction builds with
    | nil => rfl
    | cons x xs ih =>
      rw [List.map_cons, List.map_cons, marshalBuild_setUpstreams, ih]
  rw [show (marshalBuild fmtTime ∘ setUpstreams f) =
      fun b => marshalBuild fmtTime (setUpstreams f b) from rfl, hmap]
  cases latest with
  | none => rfl
  | some b => simp only [Option.map, marshalBuild_setUpstreams]

/-- C1: for every `Download` — whatever its `UpstreamURL` — the
JSON-serialized form of the `Download`, of any `Build` containing it and of
any `BuildsResponse` containing those is unchanged by any rewriting of the
`UpstreamURL` fields (the serialization carries no information about them),
and the keys a serialized `Download` can emit are exactly
`name`/`sha256`/`sha1`/`size` — there is no upstream-URL key. -/
theorem jsonNeverContainsUpstreamURL :
    (∀ (d : Download) (u : String),
        marshalDownload { d with upstreamURL := u } = marshalDownload d) ∧
    (∀ (fmtTime : Option Int → String) (f : Download → String) (b : Build),
        marshalBuild fmtTime (setUpstreams f b) = marshalBuild fmtTime b) ∧
    (∀ (fmtTime : Option Int → String) (f : Download → String)
        (r : BuildsResponse),
        marshalBuildsResponse fmtTime (setUpstreamsResponse f r) =
          marshalBuildsResponse fmtTime r) ∧
    (∀ d : Download, (objKeys (marshalDownload d)).all
        (fun k => k == "name" || k == "sha256" || k == "sha1" || k == "size")
      = true) := by
  refine ⟨marshalDownload_setUpstream, marshalBuild_setUpstreams,
    marshalBuildsResponse_setUpstreams, ?_⟩
  intro d
  rcases d with ⟨n, s2, s1, sz, u⟩
  simp only [marshalDownload, objKeys]
  split_ifs <;> rfl

/-! ## Claim C2: getLatestBuild returns the first stable build -/

/-- The build list of the spec's example: `[{5, alpha}, {4, stable},
{3, stable}]`. -/
def exampleFillBuilds : List Paper.FillBuild :=
  [{ id := 5, channel := "alpha", time := "",
     downloads := [("server:default", { url := "u5", sha256 := "" })], changes := [] },
   { id := 4, channel := "stable", time := "",
     downloads := [("server:default", { url := "u4", sha256 := "" })], changes := [] },
   { id := 3, channel := "stable", time := "",
     downloads := [("server:default", { url := "u3", sha256 := "" })], changes := [] }]

theorem latestFromBuilds_of_find (bs : List Build) (s : Build)
    (h : bs.find? (fun b => b.stable) = some s) :
    Paper.latestFromBuilds bs = .ok s := by
  cases bs with
  | nil => simp [List.find?] at h
  | cons b rest => simp [Paper.latestFromBuilds, h]

theorem latestFromBuilds_of_none (b : Build) (rest : List Build)
    (h : (b :: rest).find? (fun x => x.stable) = none) :
    Paper.latestFromBuilds (b :: rest) = .ok b := by
  simp [Paper.latestFromBuilds, h]

/-- C2: for a non-empty build list, `GetLatestBuild` returns the first
build whose `Stable` flag is set in the newest-first `GetBuilds` order if
one exists, else the first build overall; on the example
`[{5, alpha}, {4, stable}, {3, stable}]` it returns build 4 (stable, channel
`stable`), not build 5. -/
theorem getLatestBuildFirstStable :
    (∀ (pt : String → Option Int) (proj ver : String)
        (fb : List Paper.FillBuild) (s : Build),
        (Paper.buildsOf pt proj ver fb).find? (fun b => b.stable) = some s →
        Paper.GetLatestBuild pt proj ver (.ok fb) = .ok s) ∧
    (∀ (pt : String → Option Int) (proj ver : String)
        (fb : List Paper.FillBuild) (b : Build) (rest : List Build),
        Paper.buildsOf pt proj ver fb = b :: rest →
        (b :: rest).find? (fun x => x.stable) = none →
        Paper.GetLatestBuild pt proj ver (.ok fb) = .ok b) ∧
    ((Paper.GetLatestBuild (fun _ => none) "paper" "1.21.1"
        (.ok exampleFillBuilds)).toOption.map
        (fun b => (b.number, b.channel, b.stable)) = some (4, "stable", true)) := by
  refine ⟨?_, ?_, by decide⟩
  · intro pt proj ver fb s h
    show Paper.latestFromBuilds (Paper.buildsOf pt proj ver fb) = .ok s
    exact latestFromBuilds_of_find _ _ h
  · intro pt proj ver fb b rest hb h
    show Paper.latestFromBuilds (Paper.buildsOf pt proj ver fb) = .ok b
    rw [hb]
    exact latestFromBuilds_of_none _ _ h

/-- The `models.Build` that build 4 of the example converts to. -/
def exampleBuild4 : Build :=
  { number := 4, version := "1.21.1", channel := "stable", stable := true,
    createdAt := none,
    downloads := [{ name := "paper-1.21.1-4.jar", sha256 := "", sha1 := "",
                    size := 0, upstreamURL := "u4" }],
    changes := [], java := 0 }

theorem getLatestBuildFirstStable_witness :
    (Paper.buildsOf (fun _ => none) "paper" "1.21.1" exampleFillBuilds).find?
        (fun b => b.stable) = some exampleBuild4 ∧
    Paper.GetLatestBuild (fun _ => none) "paper" "1.21.1"
        (.ok exampleFillBuilds) = .ok exampleBuild4 :=
  ⟨by decide, getLatestBuildFirstStable.1 (fun _ => none) "paper" "1.21.1"
    exampleFillBuilds exampleBuild4 (by decide)⟩

/-! ## Claim C3: the comparator is antisymmetric, transitive, and orders
the spec's example pairs -/

/-- C3: `compareVersions` is antisymmetric (`compare(a,b) = -compare(b,a)`)
and transitive on strict comparisons, and ranks `1.21.1 > 1.21`,
`1.20 > 1.20-pre1`, `1.20-rc1 > 1.20-beta2` and `1.20-pre2 > 1.20-pre1`,
per the fixed kind order `snapshot < alpha < beta < pre < rc` and the
numeric suffix tie-break. -/
theorem compareVersionsAntisymmTransExamples :
    (∀ a b : String, Paper.compareVersions a b = - Paper.compareVersions b a) ∧
    (∀ a b c : String, Paper.compareVersions a b = 1 →
        Paper.compareVersions b c = 1 → Paper.compareVersions a c = 1) ∧
    Paper.compareVersions "1.21.1" "1.21" = 1 ∧
    Paper.compareVersions "1.20" "1.20-pre1" = 1 ∧
    Paper.compareVersions "1.20-rc1" "1.20-beta2" = 1 ∧
    Paper.compareVersions "1.20-pre2" "1.20-pre1" = 1 :=
  ⟨Paper.compareVersions_antisymm, Paper.compareVersions_trans,
   by decide, by decide, by decide, by decide⟩

theorem compareVersionsAntisymmTransExamples_witness :
    Paper.compareVersions "1.21.1" "1.21" = 1 ∧
    Paper.compareVersions "1.21" "1.20" = 1 ∧
    Paper.compareVersions "1.21.1" "1.20" = 1 :=
  ⟨by decide, by decide,
   compareVersionsAntisymmTransExamples.2.1 "1.21.1" "1.21" "1.20"
     (by decide) (by decide)⟩

/-! ## Claim C4: rule-table scan of the Java requirement resolver -/

/-- C4: outside the legacy/weekly special cases, `GetRequirement` is the
top-to-bottom first-match scan of the role's rule table with the configured
default as fallback; `findRequirement` takes the head rule exactly when the
input compares `≥ 0` against its `MinVersion`; and on the table
`[{1.20.5, 21}, {1.18, 17}, {0, 8}]` the resolver yields 21 for `1.20.6`,
17 for `1.19` and 8 for `1.5`, while a table no rule of which matches
yields the configured default. -/
theorem javaRuleTableFirstMatch :
    (∀ (cfg : Java.JavaConfig) (version : String) (category : Category),
        Java.isLegacyVersion (toLowerStr version).toList = false →
        Java.weeklySnapshotMatch (toLowerStr version).toList = none →
        Java.getRequirementLoaded cfg version category =
          match Java.findRequirement version
              (if Java.isProxy category then cfg.proxies else cfg.servers) with
          | some j => j
          | none => cfg.defaultJava) ∧
    (∀ (version mv : String) (j : Int) (rest : List Java.VersionRequirement),
        Java.compareVersions version mv ≥ 0 →
        Java.findRequirement version (⟨mv, j⟩ :: rest) = some j) ∧
    (∀ (version mv : String) (j : Int) (rest : List Java.VersionRequirement),
        ¬ Java.compareVersions version mv ≥ 0 →
        Java.findRequirement version (⟨mv, j⟩ :: rest) =
          Java.findRequirement version rest) ∧
    Java.getRequirementLoaded
      ⟨[⟨"1.20.5", 21⟩, ⟨"1.18", 17⟩, ⟨"0", 8⟩], [], 99⟩ "1.20.6"
      Category.paper = 21 ∧
    Java.getRequirementLoaded
      ⟨[⟨"1.20.5", 21⟩, ⟨"1.18", 17⟩, ⟨"0", 8⟩], [], 99⟩ "1.19"
      Category.paper = 17 ∧
    Java.getRequirementLoaded
      ⟨[⟨"1.20.5", 21⟩, ⟨"1.18", 17⟩, ⟨"0", 8⟩], [], 99⟩ "1.5"
      Category.paper = 8 ∧
    Java.getRequirementLoaded ⟨[⟨"2", 9⟩], [], 99⟩ "1.5" Category.paper = 99 := by
  refine ⟨?_, ?_, ?_, by decide, by decide, by decide, by decide⟩
  · intro cfg version category hleg hweek
    simp only [Java.getRequirementLoaded, hleg, Bool.false_eq_true, if_false,
      hweek]
  · intro version mv j rest h
    simp [Java.findRequirement, h]
  · intro version mv j rest h
    simp [Java.findRequirement, h]

theorem javaRuleTableFirstMatch_witness :
    Java.isLegacyVersion (toLowerStr "1.20.6").toList = false ∧
    Java.weeklySnapshotMatch (toLowerStr "1.20.6").toList = none ∧
    Java.getRequirementLoaded
        ⟨[⟨"1.20.5", 21⟩, ⟨"1.18", 17⟩, ⟨"0", 8⟩], [], 99⟩ "1.20.6"
        Category.paper =
      match Java.findRequirement "1.20.6"
          (if Java.isProxy Category.paper then []
           else [⟨"1.20.5", 21⟩, ⟨"1.18", 17⟩, ⟨"0", 8⟩]) with
      | some j => j
      | none => 99 :=
  ⟨by decide, by decide,
   javaRuleTableFirstMatch.1 ⟨[⟨"1.20.5", 21⟩, ⟨"1.18", 17⟩, ⟨"0", 8⟩], [], 99⟩
     "1.20.6" Category.paper (by decide) (by decide)⟩

/-! ## Claim C8: weekly snapshots with year ≥ 24 always resolve to Java 21 -/

theorem beq_eq_false_of_digit {c d : Char} (h : isDigitChar c = true)
    (hd : isDigitChar d = false) : (c == d) = false := by
  cases hcd : c == d
  · rfl
  · have hc : c = d := eq_of_beq hcd
    subst hc
    rw [h] at hd
    exact absurd hd (by simp)

/-- A string matched by the weekly-snapshot regex starts with a digit, so
none of the legacy prefixes (`a`, `b`, `c`, `rd-`, `inf-`) applies, and its
shape (digits in positions 0, 1, 3, 4 and a `w` in position 2) leaves no
room for an `indev` substring. -/
theorem weekly_not_legacy {lower : List Char} {p : Int × Int}
    (h : Java.weeklySnapshotMatch lower = some p) :
    Java.isLegacyVersion lower = false := by
  unfold Java.weeklySnapshotMatch at h
  split at h
  case h_1 y1 y2 wc w1 w2 c =>
    split at h
    case isTrue hcond =>
      simp only [Bool.and_eq_true] at hcond
      obtain ⟨⟨⟨⟨⟨h1, h2⟩, h3⟩, h4⟩, h5⟩, h6⟩ := hcond
      have hwc : wc = 'w' := eq_of_beq h3
      subst hwc
      have ha := beq_eq_false_of_digit h1 (by decide : isDigitChar 'a' = false)
      have hb := beq_eq_false_of_digit h1 (by decide : isDigitChar 'b' = false)
      have hc := beq_eq_false_of_digit h1 (by decide : isDigitChar 'c' = false)
      have hr := beq_eq_false_of_digit h1 (by decide : isDigitChar 'r' = false)
      have hi1 := beq_eq_false_of_digit h1 (by decide : isDigitChar 'i' = false)
      have hi2 := beq_eq_false_of_digit h2 (by decide : isDigitChar 'i' = false)
      simp [Java.isLegacyVersion, listStartsWith, listContains,
        ha, hb, hc, hr, hi1, hi2]
    case isFalse _ => exact absurd h (by simp)
  case h_2 => exact absurd h (by simp)

/-- C8: whenever the lower-cased version matches the weekly snapshot
pattern `^(\d{2})w(\d{2})[a-z]$` with year component at least 24, the
resolver returns Java 21, whatever the rule tables and default in the
loaded configuration say. -/
theorem weeklySnapshotYear24Java21 (cfg : Java.JavaConfig) (version : String)
    (category : Category) (y w : Int)
    (hm : Java.weeklySnapshotMatch (toLowerStr version).toList = some (y, w))
    (hy : 24 ≤ y) :
    Java.getRequirementLoaded cfg version category = 21 := by
  have hleg := weekly_not_legacy hm
  simp only [Java.getRequirementLoaded, hleg, Bool.false_eq_true, if_false, hm]
  unfold Java.snapshotJava
  rw [if_pos hy]

/-! ## Claim C5: listVersions length and the enrichment-failure policy -/

theorem mapEntries_length (l : List Paper.FillVersionEntry) :
    (Paper.mapEntries l).length = (l.map (fun e => e.id)).toFinset.card := by
  induction l with
  | nil => simp [Paper.mapEntries]
  | cons e rest ih =>
    simp only [Paper.mapEntries, List.map_cons, List.toFinset_cons]
    by_cases h : rest.any (fun x => x.id == e.id)
    · rw [if_pos h, ih, Finset.insert_eq_self.mpr]
      rw [List.mem_toFinset]
      simp only [List.any_eq_true, beq_iff_eq] at h
      obtain ⟨x, hx, hxe⟩ := h
      exact List.mem_map.mpr ⟨x, hx, hxe⟩
    · rw [if_neg h, List.length_cons, ih, Finset.card_insert_of_not_mem]
      intro hmem
      apply h
      rw [List.mem_toFinset] at hmem
      obtain ⟨x, hx, hxe⟩ := List.mem_map.mp hmem
      exact List.any_eq_true.mpr ⟨x, hx, beq_iff_eq.mpr hxe⟩

/-- C5 counterexample: for the Paper/Fill provider, the upstream version
`1.21.1` (a release: `isSnapshotVersion` is false, so its type-derived
default stability is `true`) comes out of `GetVersions` with
`Stable = false` when its enrichment call fails — it does not keep the
type-derived default the claim requires. -/
theorem enrichFailureStability_cex :
    Paper.isSnapshotVersion "1.21.1" = false ∧
    (Paper.GetVersions (fun _ => none) [⟨"1.21.1", true, 21⟩]).map
        (fun v => (v.id, v.stable, v.releaseTime)) = [("1.21.1", false, none)] :=
  ⟨by decide, by decide⟩

/-- C5 (amended): for every upstream list and every pattern of enrichment
failures, `GetVersions` returns one `Version` per distinct upstream
version identifier (Paper/Fill) resp. per upstream list entry (Purpur), and
a version whose enrichment call fails keeps a zero-value release time; its
stability, however, is the provider's merge value: `false` for Paper/Fill
(not the type-derived default) and the default `true` for Purpur. -/
theorem listVersionsLengthDegrade :
    (∀ (enrich : String → Option Paper.EnrichResult)
        (upstream : List Paper.FillVersionEntry),
        (Paper.GetVersions enrich upstream).length =
          ((upstream.map (fun e => e.id)).toFinset.card)) ∧
    (∀ (enrich : String → Option Paper.EnrichResult)
        (upstream : List Paper.FillVersionEntry) (v : Version),
        v ∈ Paper.GetVersions enrich upstream → enrich v.id = none →
        v.releaseTime = none ∧ v.stable = false) ∧
    (∀ (enrich : String → Option Int) (upstream : List String),
        (Purpur.GetVersions enrich upstream).length = upstream.length) ∧
    (∀ (enrich : String → Option Int) (upstream : List String) (v : Version),
        v ∈ Purpur.GetVersions enrich upstream →
        v.stable = true ∧ (enrich v.id = none → v.releaseTime = none)) := by
  refine ⟨?_, ?_, ?_, ?_⟩
  · intro enrich upstream
    unfold Paper.GetVersions
    rw [List.length_insertionSort, List.length_map, List.length_map,
      mapEntries_length]
  · intro enrich upstream v hv hnone
    unfold Paper.GetVersions at hv
    rw [List.mem_insertionSort] at hv
    obtain ⟨b, hb, rfl⟩ := List.mem_map.mp hv
    obtain ⟨e, _, rfl⟩ := List.mem_map.mp hb
    simp only at hnone
    simp [hnone]
  · intro enrich upstream
    unfold Purpur.GetVersions
    rw [List.length_insertionSort, List.length_map, List.length_reverse,
      List.length_map]
  · intro enrich upstream v hv
    unfold Purpur.GetVersions at hv
    rw [List.mem_insertionSort] at hv
    obtain ⟨b, hb, rfl⟩ := List.mem_map.mp hv
    rw [List.mem_reverse] at hb
    obtain ⟨s, _, rfl⟩ := List.mem_map.mp hb
    cases he : enrich s with
    | none => simp [he]
    | some t => simp [he]

theorem listVersionsLengthDegrade_witness :
    (⟨"1.21.1", VersionType.release, none, false, true, 21⟩ : Version) ∈
        Paper.GetVersions (fun _ => none) [⟨"1.21.1", true, 21⟩] ∧
    (⟨"1.21.1", VersionType.release, none, false, true, 21⟩ : Version).releaseTime
        = none ∧
    (⟨"1.21.1", VersionType.release, none, false, true, 21⟩ : Version).stable
        = false :=
  ⟨by decide,
   (listVersionsLengthDegrade.2.1 (fun _ => none) [⟨"1.21.1", true, 21⟩]
     ⟨"1.21.1", VersionType.release, none, false, true, 21⟩ (by decide) rfl).1,
   (listVersionsLengthDegrade.2.1 (fun _ => none) [⟨"1.21.1", true, 21⟩]
     ⟨"1.21.1", VersionType.release, none, false, true, 21⟩ (by decide) rfl).2⟩

/-! ## Claim C6: cross-provider search degrades on a failed provider -/

theorem searchOne_error (yearOf : Int → Int) (opts : Service.SearchOptions)
    (f : Service.ProviderSim) (e : String) (hf : f.versions = .error e) :
    Service.searchOne yearOf opts f = [] := by
  unfold Service.searchOne
  rw [hf]
  split <;> rfl

/-- C6: when one registered provider's version fetch fails, `Search` still
succeeds and returns exactly the concatenated contributions of the
remaining providers — the failing provider contributes zero results. -/
theorem searchDegradesOnProviderFailure (yearOf : Int → Int)
    (pre post : List Service.ProviderSim) (f : Service.ProviderSim)
    (e : String) (opts : Service.SearchOptions)
    (hf : f.versions = .error e) :
    Service.Search yearOf (pre ++ f :: post) opts =
      .ok (Service.searchList yearOf (pre ++ post) opts) := by
  unfold Service.Search Service.searchList
  rw [List.flatMap_append, List.flatMap_cons,
    searchOne_error yearOf opts f e hf, List.nil_append,
    List.flatMap_append]

/-- The two providers of the C6 witness: one healthy Paper provider with a
single version, one failing Purpur provider. -/
def c6ok : Service.ProviderSim :=
  { id := "paper", name := "Paper", category := Category.paper,
    versions := .ok [⟨"1.21.1", VersionType.release, none, true, true, 21⟩] }

def c6fail : Service.ProviderSim :=
  { id := "purpur", name := "Purpur", category := Category.purpur,
    versions := .error "upstream down" }

def c6opts : Service.SearchOptions :=
  { query := "", category := none, versionType := none, java := none,
    minYear := none, maxYear := none, stableOnly := false, after := none,
    before := none }

theorem searchDegradesOnProviderFailure_witness :
    c6fail.versions = .error "upstream down" ∧
    Service.Search (fun _ => 0) [c6ok, c6fail] c6opts =
      .ok (Service.searchList (fun _ => 0) [c6ok] c6opts) ∧
    Service.searchList (fun _ => 0) [c6ok] c6opts =
      [⟨Category.paper, "1.21.1", 21⟩] :=
  ⟨rfl,
   searchDegradesOnProviderFailure (fun _ => 0) [c6ok] [] c6fail
     "upstream down" c6opts rfl,
   by decide⟩

/-! ## Claim C7: download-URL resolution and delegation to getBuild -/

/-- C7 counterexample: the Purpur provider's `GetDownloadURL` does not
delegate to `getBuild`: with an upstream on which the build fetch fails
(`GetBuild` returns an error, so no build — and no `Download` entry —
exists), `GetDownloadURL` still returns a constructed URL instead of
failing. -/
theorem purpurNoDelegation_cex :
    Purpur.GetBuild (.error "not found") "1.21.1" 42 = .error "not found" ∧
    Purpur.GetDownloadURL "1.21.1" 42 =
      .ok "https://api.purpurmc.org/v2/purpur/1.21.1/42/download" :=
  ⟨rfl, by decide⟩

/-- C7 (amended): the Paper-family provider's `GetDownloadURL` delegates to
`GetBuild` — it propagates its error, fails with `no download available`
exactly when the resolved build carries zero `Download` entries, and
otherwise returns the first download's upstream URL; the Purpur provider
instead always returns the URL constructed from the version and build
number, without consulting `getBuild`. -/
theorem downloadURLDelegation :
    (∀ (pt : String → Option Int) (proj ver : String)
        (fetch : Except String (List Paper.FillBuild)) (bn : Int) (e : String),
        Paper.GetBuild pt proj ver fetch bn = .error e →
        Paper.GetDownloadURL pt proj ver fetch bn = .error e) ∧
    (∀ (pt : String → Option Int) (proj ver : String)
        (fetch : Except String (List Paper.FillBuild)) (bn : Int) (b : Build),
        Paper.GetBuild pt proj ver fetch bn = .ok b →
        b.downloads = [] →
        Paper.GetDownloadURL pt proj ver fetch bn =
          .error "no download available") ∧
    (∀ (pt : String → Option Int) (proj ver : String)
        (fetch : Except String (List Paper.FillBuild)) (bn : Int) (b : Build)
        (d : Download) (rest : List Download),
        Paper.GetBuild pt proj ver fetch bn = .ok b →
        b.downloads = d :: rest →
        Paper.GetDownloadURL pt proj ver fetch bn = .ok d.upstreamURL) ∧
    (∀ (ver : String) (bn : Int),
        Purpur.GetDownloadURL ver bn = .ok (Purpur.downloadURLFor ver bn)) := by
  refine ⟨?_, ?_, ?_, fun ver bn => rfl⟩
  · intro pt proj ver fetch bn e h
    simp only [Paper.GetDownloadURL, h]
  · intro pt proj ver fetch bn b h hdl
    simp only [Paper.GetDownloadURL, h, hdl]
  · intro pt proj ver fetch bn b d rest h hdl
    simp only [Paper.GetDownloadURL, h, hdl]

/-- The Fill build and its converted `models.Build` used by the C7
witness. -/
def c7fill : Paper.FillBuild :=
  { id := 7, channel := "STABLE", time := "",
    downloads := [("server:default", { url := "http://u7", sha256 := "h" })],
    changes := [] }

def c7dl : Download :=
  { name := "paper-1.21-7.jar", sha256 := "h", sha1 := "", size := 0,
    upstreamURL := "http://u7" }

def c7build : Build :=
  { number := 7, version := "1.21", channel := "STABLE", stable := true,
    createdAt := none, downloads := [c7dl], changes := [], java := 0 }

theorem downloadURLDelegation_witness :
    Paper.GetBuild (fun _ => none) "paper" "1.21" (.ok [c7fill]) 7 =
      .ok c7build ∧
    c7build.downloads = c7dl :: [] ∧
    Paper.GetDownloadURL (fun _ => none) "paper" "1.21" (.ok [c7fill]) 7 =
      .ok c7dl.upstreamURL :=
  ⟨by decide, by decide,
   downloadURLDelegation.2.2.1 (fun _ => none) "paper" "1.21" (.ok [c7fill])
     7 c7build c7dl [] (by decide) (by decide)⟩

/-! ## Claim C10: BungeeCord GetBuilds keeps at most the first 50 refs -/

theorem bungee_take_eq (refs : List Bungee.JenkinsBuildRef) :
    refs.take (if refs.length < 50 then refs.length else 50) = refs.take 50 := by
  split
  · next h =>
    rw [List.take_length, List.take_of_length_le (by omega)]
  · rfl

/-- C10: `GetBuilds` (bungeecord.go) returns at most 50 builds; only the
first 50 build references of the job listing matter (dropping the rest of
the listing does not change the result); and every returned build comes
from a first-50 reference whose detail fetch succeeded and whose artifact
list carries `BungeeCord.jar` — failed or jar-less references are silently
omitted. -/
theorem bungeeBuilds50Limit :
    (∀ (fetch : Int → Except String Bungee.JenkinsBuildInfo) (ver : String)
        (refs : List Bungee.JenkinsBuildRef),
        (Bungee.GetBuilds fetch ver refs).length ≤ 50) ∧
    (∀ (fetch : Int → Except String Bungee.JenkinsBuildInfo) (ver : String)
        (refs : List Bungee.JenkinsBuildRef),
        Bungee.GetBuilds fetch ver refs =
          Bungee.GetBuilds fetch ver (refs.take 50)) ∧
    (∀ (fetch : Int → Except String Bungee.JenkinsBuildInfo) (ver : String)
        (refs : List Bungee.JenkinsBuildRef) (b : Build),
        b ∈ Bungee.GetBuilds fetch ver refs →
        ∃ ref ∈ refs.take 50, ∃ info a, fetch ref.number = .ok info ∧
          Bungee.findJarArtifact info.artifacts = some a ∧
          b = Bungee.buildOfInfo ver ref.number info a) := by
  refine ⟨?_, ?_, ?_⟩
  · intro fetch ver refs
    unfold Bungee.GetBuilds
    rw [List.length_insertionSort, bungee_take_eq]
    calc ((refs.take 50).filterMap _).length
        ≤ (refs.take 50).length := List.length_filterMap_le _ _
      _ ≤ 50 := by rw [List.length_take]; omega
  · intro fetch ver refs
    simp only [Bungee.GetBuilds]
    rw [bungee_take_eq, bungee_take_eq, List.take_take]
    norm_num
  · intro fetch ver refs b hb
    simp only [Bungee.GetBuilds, List.mem_insertionSort, bungee_take_eq] at hb
    obtain ⟨ref, href, hfb⟩ := List.mem_filterMap.mp hb
    refine ⟨ref, href, ?_⟩
    cases hfetch : fetch ref.number with
    | error e =>
      simp only [hfetch] at hfb
      exact Option.noConfusion hfb
    | ok info =>
      simp only [hfetch] at hfb
      cases hjar : Bungee.findJarArtifact info.artifacts with
      | none =>
        simp only [hjar] at hfb
        exact Option.noConfusion hfb
      | some a =>
        simp only [hjar, Option.some.injEq] at hfb
        exact ⟨info, a, rfl, hjar, hfb.symm⟩

/-- The Jenkins listing of the C10 witness: two refs, the first healthy
with a `BungeeCord.jar` artifact, the second failing its detail fetch. -/
def c10info : Bungee.JenkinsBuildInfo :=
  { number := 1, result := "SUCCESS", timestamp := 0,
    artifacts := [⟨"", "BungeeCord.jar", "p/BungeeCord.jar"⟩] }

def c10fetch (n : Int) : Except String Bungee.JenkinsBuildInfo :=
  if n = 1 then .ok c10info else .error "detail fetch failed"

theorem bungeeBuilds50Limit_witness :
    Bungee.buildOfInfo "latest" 1 c10info ⟨"", "BungeeCord.jar", "p/BungeeCord.jar"⟩
        ∈ Bungee.GetBuilds c10fetch "latest" [⟨1, "u1"⟩, ⟨2, "u2"⟩] ∧
    (∃ ref ∈ ([⟨1, "u1"⟩, ⟨2, "u2"⟩] : List Bungee.JenkinsBuildRef).take 50,
      ∃ info a, c10fetch ref.number = .ok info ∧
        Bungee.findJarArtifact info.artifacts = some a ∧
        Bungee.buildOfInfo "latest" 1 c10info
          ⟨"", "BungeeCord.jar", "p/BungeeCord.jar"⟩ =
            Bungee.buildOfInfo "latest" ref.number info a) :=
  ⟨by decide,
   bungeeBuilds50Limit.2.2 c10fetch "latest" [⟨1, "u1"⟩, ⟨2, "u2"⟩] _ (by decide)⟩

/-! ## Claim C9: unparseable main segments in the Paper comparator -/

/-- The claim's hypothesis "the main segment begins with non-numeric text":
the first character of the main segment (the part before any `-`, after
lower-casing) is not a decimal digit and not a sign, so `strconv.Atoi`
cannot read a number from the segment's first dot-component. -/
def mainSegNonNumeric (v : String) : Bool :=
  match (splitN2 '-' (toLowerStr v).toList).headD [] with
  | [] => false
  | c :: _ => !isDigitChar c && !(c == '+') && !(c == '-')

theorem splitChar_ne_nil (sep : Char) (l : List Char) :
    splitChar sep l ≠ [] := by
  cases l with
  | nil => simp [splitChar]
  | cons c rest =>
    unfold splitChar
    split
    · simp
    · split <;> simp

theorem goAtoiL_none_of_head {c : Char} {cs : List Char}
    (hd : isDigitChar c = false) (hp : c ≠ '+') (hm : c ≠ '-') :
    goAtoiL (c :: cs) = none := by
  simp only [goAtoiL]
  rw [if_neg hp, if_neg hm]
  simp [digitsToNatAux, hd]

/-- The unfolding equation of `splitChar` on a cons cell. -/
theorem splitChar_cons (sep c : Char) (rest : List Char) :
    splitChar sep (c :: rest) =
      if c = sep then [] :: splitChar sep rest
      else
        match splitChar sep rest with
        | [] => [[c]]
        | h :: t => (c :: h) :: t := rfl

/-- An unparseable main segment yields major component 0: the error of
`strconv.Atoi` is discarded and the zero value remains. -/
theorem major_zero_of_nonNumeric {v : String}
    (h : mainSegNonNumeric v = true) :
    (Paper.parseSemanticVersion v).major = 0 := by
  unfold mainSegNonNumeric at h
  unfold Paper.parseSemanticVersion
  cases hm : (splitN2 '-' (toLowerStr v).toList).headD [] with
  | nil => rw [hm] at h; simp at h
  | cons c rest =>
    rw [hm] at h
    simp only [Bool.and_eq_true, Bool.not_eq_true'] at h
    obtain ⟨⟨hd, hplus⟩, hminus⟩ := h
    simp only [hm]
    by_cases hdot : c = '.'
    · rw [splitChar_cons, if_pos hdot]
      show goAtoiZ (String.mk []) = 0
      rfl
    · cases hsp : splitChar '.' rest with
      | nil => exact absurd hsp (splitChar_ne_nil '.' rest)
      | cons h0 t =>
        rw [splitChar_cons, if_neg hdot, hsp]
        show goAtoiZ (String.mk (c :: h0)) = 0
        unfold goAtoiZ goAtoi
        rw [show (String.mk (c :: h0)).toList = c :: h0 from rfl,
          goAtoiL_none_of_head hd (ne_of_beq_false hplus)
            (ne_of_beq_false hminus)]
        rfl

/-- C9 (amended): the Paper comparator parses an unparseable main segment
as `(0,0,0)` instead of treating the whole string as minimal, so a string
whose main segment begins with non-numeric text loses to every version with
a positive major component — `compareVersions "xyz" "1.20" = -1` — but not
to every parseable string (see the counterexample). -/
theorem unparseableMainComparesLow :
    (∀ v1 v2 : String, mainSegNonNumeric v1 = true →
        1 ≤ (Paper.parseSemanticVersion v2).major →
        Paper.compareVersions v1 v2 = -1) ∧
    (∀ v1 v2 : String, mainSegNonNumeric v2 = true →
        1 ≤ (Paper.parseSemanticVersion v1).major →
        Paper.compareVersions v1 v2 = 1) ∧
    Paper.compareVersions "xyz" "1.20" = -1 ∧
    Paper.parseSemanticVersion "xyz" =
      { major := 0, minor := 0, patch := 0, preRelease := "",
        preReleaseNum := 0 } := by
  refine ⟨?_, ?_, by decide, by decide⟩
  · intro v1 v2 h1 h2
    have hz := major_zero_of_nonNumeric h1
    unfold Paper.compareVersions Paper.cmpParsed
    rw [if_pos (by omega), if_neg (by omega)]
  · intro v1 v2 h2 h1
    have hz := major_zero_of_nonNumeric h2
    unfold Paper.compareVersions Paper.cmpParsed
    rw [if_pos (by omega), if_pos (by omega)]

theorem unparseableMainComparesLow_witness :
    mainSegNonNumeric "xyz" = true ∧
    1 ≤ (Paper.parseSemanticVersion "1.20").major ∧
    Paper.compareVersions "xyz" "1.20" = -1 :=
  ⟨by decide, by decide,
   unparseableMainComparesLow.1 "xyz" "1.20" (by decide) (by decide)⟩

/-- C9 counterexample: `"xyz"` has an unparseable main segment and `"0"`
and `"0-pre1"` have parseable ones, yet the comparator does not rank
`"xyz"` strictly lower: it ties with `"0"` and even ranks above
`"0-pre1"`. -/
theorem unparseableComparator_cex :
    mainSegNonNumeric "xyz" = true ∧
    goAtoi "0" = some 0 ∧
    Paper.compareVersions "xyz" "0" = 0 ∧
    Paper.compareVersions "xyz" "0" ≠ -1 ∧
    Paper.compareVersions "xyz" "0-pre1" = 1 :=
  ⟨by decide, by decide, by decide, by decide, by decide⟩

theorem weeklySnapshotYear24Java21_witness :
    Java.weeklySnapshotMatch (toLowerStr "24w33a").toList = some (24, 33) ∧
    (24 : Int) ≤ 24 ∧
    Java.getRequirementLoaded ⟨[⟨"0", 8⟩], [], 17⟩ "24w33a"
      Category.paper = 21 :=
  ⟨by decide, by decide,
   weeklySnapshotYear24Java21 ⟨[⟨"0", 8⟩], [], 17⟩ "24w33a" Category.paper
     24 33 (by decide) (by decide)⟩

end WaveMC

